import Mathlib

/-!
Verification of the ExcelFlow frontend (`src/frontend/src/App.jsx`) against its
natural-language specification.

The repository ships only the React frontend: the `App` component (WebSocket
wiring, upload handler, chat send), `ChatInterface`, `ExcelViewer` (column/row
construction and the Excel column-name encoder `getExcelColumnName`), and
`FileUpload` (supported-format check).  The backend pieces the specification
describes (the CellAddress/Range resolver's decoder, the SpreadsheetEngine's
`writeRange`/`readRange`, the server's outbound message alphabet) are not in
the source tree; where a claim depends on them they are modelled from the
spec's words, and each such definition is marked `Modelled from the spec:`.

Machine integers do not matter here: every loop index in the source stays far
below 2^53, so JavaScript numbers are embedded as `Nat`/`Int` directly.
-/

/-! ## Column-name encoding (`getExcelColumnName`, App.jsx lines 259-270) -/

/-- Translated from `getExcelColumnName`'s while-loop in `ExcelViewer`
(App.jsx 259-270), restricted to a non-negative running index.  The loop
variable `tempIndex` becomes the second argument; each iteration prepends
`String.fromCharCode(65 + tempIndex % 26)` and continues with
`Math.floor(tempIndex / 26) - 1`, stopping when that becomes negative.
The first argument is fuel bounding the recursion depth; `n` iterations are
always enough because the running index strictly decreases, and when the fuel
runs out the invariant `n ≤ fuel` forces `n = 0 < 26`, where the fallback
returns the same single character as the base case. -/
def colCharsAux : Nat → Nat → List Char
  | 0, n => [Char.ofNat (65 + n % 26)]
  | fuel + 1, n =>
    if n < 26 then [Char.ofNat (65 + n % 26)]
    else colCharsAux fuel (n / 26 - 1) ++ [Char.ofNat (65 + n % 26)]

/-- The character list built by `getExcelColumnName`'s loop for a
non-negative starting index `n`. -/
def colChars (n : Nat) : List Char := colCharsAux n n

/-- Translated from `getExcelColumnName` (App.jsx 259-270).  The JS function
takes a number; if it is negative the `while (tempIndex >= 0)` guard fails at
once and the empty string is returned, otherwise the loop runs as in
`colChars`. -/
def getExcelColumnName (index : Int) : String :=
  if index < 0 then "" else String.mk (colChars index.toNat)

/-- Modelled from the spec: §4.1 says the CellAddress/Range resolver decodes a
letter-based column name by the exact inverse of the bijective base-26
encoding.  This folds each letter `c` in as `acc * 26 + (c - 'A' + 1)`,
giving the 1-based bijective base-26 value of the letter list. -/
def decodeColumnChars (l : List Char) : Nat :=
  l.foldl (fun acc c => acc * 26 + (c.toNat - 64)) 0

/-- Modelled from the spec: §4.1's decoder on strings, returning the
zero-based column index (the bijective base-26 value minus one). -/
def decodeColumnName (s : String) : Nat := decodeColumnChars s.data - 1

/-- Modelled from the spec: §4.1's lexical pattern for a column name — a
non-empty string of uppercase letters `A`-`Z` (codes 65-90). -/
def isValidColumnName (s : String) : Bool :=
  !s.data.isEmpty && s.data.all fun c => decide (65 ≤ c.toNat) && decide (c.toNat ≤ 90)

/-! ## Client application state (App.jsx `App` component) -/

/-- Grid metadata as the frontend consumes it: `metadata.rows` and
`metadata.columns` (App.jsx 238, ExcelViewer). -/
structure Metadata where
  rows : Nat
  columns : Nat
deriving DecidableEq

/-- One data row of the grid payload, as an opaque list of cell strings. -/
def RowData : Type := List String

/-- The `{data, metadata}` payload held in the `excelData` state variable
(App.jsx 8-9, 31-34, 77-78). -/
structure ExcelData where
  data : List RowData
  metadata : Metadata

/-- One `{role, content}` entry of the `messages` state (App.jsx 13, 37-40,
126-129). -/
structure ChatMessage where
  role : String
  content : String
deriving DecidableEq

/-- The `App` component's state variables (App.jsx 8-13); the raw socket
object is modelled separately by its ready state where needed. -/
structure AppState where
  clientId : Option String
  excelData : Option ExcelData
  loading : Bool
  error : Option String
  messages : List ChatMessage

/-! ## WebSocket message handling (`ws.onmessage`, App.jsx 26-47) -/

/-- The alphabet of messages the server pushes to an observer.  The two
constructors are the two branches `ws.onmessage` dispatches on
(`data.type === 'excel_update'` versus everything else, App.jsx 29-46);
that these are the only two kinds pushed is Modelled from the spec: §6's
outbound observer contract (`state-delta` or `chat-reply`), since the server
is not in the source tree. -/
inductive ServerMessage
  | excelUpdate (data : List RowData) (metadata : Metadata)
  | chatReply (response : String) (excelModified : Bool)

/-- Translated from the `ws.onmessage` handler (App.jsx 26-47): an
`excel_update` message replaces the grid state; any other message is appended
to the conversation as an assistant turn, and its `excel_modified` flag
decides whether a follow-up `fetchExcelData` is triggered (the returned
Bool). -/
def handleWsMessage (st : AppState) (msg : ServerMessage) : AppState × Bool :=
  match msg with
  | .excelUpdate d m => ({ st with excelData := some ⟨d, m⟩ }, false)
  | .chatReply resp modified =>
    ({ st with messages := st.messages ++ [⟨"assistant", resp⟩] }, modified)

/-! ## Snapshot fetch and attach effect (App.jsx 16-83) -/

/-- Translated from `fetchExcelData` (App.jsx 71-83): on a successful
response the full `{data, metadata}` payload replaces `excelData`; on
failure an error message is set instead. -/
def fetchExcelData (st : AppState) (result : Option ExcelData) : AppState :=
  match result with
  | some d => { st with excelData := some d }
  | none => { st with error := some "Failed to load Excel data. Please try again." }

/-- The observable actions of the `App` component's connection effect. -/
inductive AttachStep
  | openWebSocket (url : String)
  | registerHandlers
  | storeSocket
  | fetchSnapshot
deriving DecidableEq

/-- Translated from the `useEffect` on `clientId` (App.jsx 16-69): with no
client identifier the effect returns immediately; otherwise it opens the
WebSocket for that identifier, registers its handlers, stores the socket, and
performs exactly one initial `fetchExcelData` snapshot fetch. -/
def attachEffectSteps (clientId : Option String) : List AttachStep :=
  match clientId with
  | none => []
  | some cid =>
    [.openWebSocket ("ws://localhost:8000/ws/" ++ cid), .registerHandlers,
     .storeSocket, .fetchSnapshot]

/-- True exactly on the snapshot-fetch step. -/
def isSnapshotFetch : AttachStep → Bool
  | .fetchSnapshot => true
  | _ => false

/-! ## Upload handling (`handleFileUpload`, App.jsx 85-117) -/

/-- Outcome of the upload POST as the frontend observes it: a successful
response carrying `client_id`, a non-ok HTTP response, or a thrown network
error. -/
inductive UploadOutcome
  | success (clientId : String)
  | httpError (status : Nat) (body : String)
  | networkError

/-- Translated from `handleFileUpload` (App.jsx 85-117): it first sets
`loading` and clears `error`; a successful response stores the returned
`client_id`; a non-ok response or a thrown fetch lands in the catch block
which only sets the error message; `finally` clears `loading`. -/
def handleFileUpload (st : AppState) (out : UploadOutcome) : AppState :=
  let started := { st with loading := true, error := none }
  match out with
  | .success cid => { started with clientId := some cid, loading := false }
  | .httpError _ _ =>
    { started with error := some "Failed to upload file. Please try again.", loading := false }
  | .networkError =>
    { started with error := some "Failed to upload file. Please try again.", loading := false }

/-- Translated from the `App` render (App.jsx 135-156): the upload screen is
shown exactly when `clientId` is unset. -/
def showsUploadScreen (st : AppState) : Bool := st.clientId.isNone

/-! ## Chat send (`sendMessage`, App.jsx 119-133) -/

/-- WebSocket ready states; `opened` models `WebSocket.OPEN`. -/
inductive ReadyState
  | connecting
  | opened
  | closing
  | closed
deriving DecidableEq

/-- Translated from `sendMessage` (App.jsx 119-133): with no socket or a
socket not in the OPEN state it sets an error and returns; otherwise it
appends the user turn to the history and transmits the message (the second
component is the transmitted payload, `none` when nothing is sent). -/
def sendMessage (socket : Option ReadyState) (st : AppState) (message : String) :
    AppState × Option String :=
  match socket with
  | none => ({ st with error := some "Connection lost. Please refresh the page." }, none)
  | some rs =>
    if rs = ReadyState.opened then
      ({ st with messages := st.messages ++ [⟨"user", message⟩] }, some message)
    else ({ st with error := some "Connection lost. Please refresh the page." }, none)

/-! ## ExcelViewer column/row construction (App.jsx 234-256) -/

/-- A `react-data-grid` column definition as `ExcelViewer` builds it
(App.jsx 238-244). -/
structure ColumnDef where
  key : String
  name : String
  resizable : Bool
  sortable : Bool
  width : Nat
deriving DecidableEq

/-- Translated from the column construction in `ExcelViewer`'s effect
(App.jsx 238-244): `Array.from({length: metadata.columns}, (_, i) => ...)`
yields one definition per index `i < metadata.columns`, keyed by the index
and named by `getExcelColumnName(i)`. -/
def makeColumns (numColumns : Nat) : List ColumnDef :=
  (List.range numColumns).map fun i : Nat =>
    { key := toString i, name := getExcelColumnName (i : Int),
      resizable := true, sortable := true, width := 120 }

/-- A grid row object `{id: rowIndex, ...row}` (App.jsx 247-252); the spread
row content is kept opaque. -/
structure GridRow (α : Type) where
  id : Nat
  cells : α

/-- Translated from the row construction in `ExcelViewer`'s effect
(App.jsx 247-252): `data.map((row, rowIndex) => ({id: rowIndex, ...row}))`. -/
def makeRows {α : Type} (data : List α) : List (GridRow α) :=
  data.enum.map fun p => ⟨p.1, p.2⟩

/-! ## FileUpload format check (App.jsx 362-461, the extended uploader) -/

/-- A browser `File` as the uploader reads it: its name and MIME type. -/
structure JSFile where
  name : String
  mimeType : String
deriving DecidableEq

/-- Translated from the `supportedFormats` object (App.jsx 370-379): MIME
type to extension. -/
def supportedFormats : List (String × String) :=
  [("application/vnd.openxmlformats-officedocument.spreadsheetml.sheet", ".xlsx"),
   ("application/vnd.ms-excel", ".xls"),
   ("application/vnd.oasis.opendocument.spreadsheet", ".ods"),
   ("text/csv", ".csv"),
   ("text/tab-separated-values", ".tsv"),
   ("application/vnd.openxmlformats-officedocument.spreadsheetml.template", ".xltx"),
   ("application/vnd.ms-excel.template.macroEnabled.12", ".xltm"),
   ("application/vnd.ms-excel.sheet.macroEnabled.12", ".xlsm")]

/-- Translated from the extension fallback list (App.jsx 393). -/
def supportedExtensionList : List String :=
  ["xlsx", "xls", "csv", "tsv", "ods", "fods", "xlsm", "xltx", "xltm"]

/-- Translated from `file.name.toLowerCase().split('.').pop()`
(App.jsx 392).  The last segment of a split at dots is the suffix after the
last dot (the whole name when there is no dot, empty when the name ends in a
dot), computed here by a left fold over the lower-cased characters that
restarts the accumulator at every dot. -/
def fileExtension (name : String) : String :=
  String.mk ((name.data.map Char.toLower).foldl
    (fun cur c => if c = '.' then [] else cur ++ [c]) [])

/-- Translated from `isFileSupported` (App.jsx 385-394): accept when the MIME
type is a key of `supportedFormats` (every value there is truthy), otherwise
fall back to the lower-cased extension check. -/
def isFileSupported (f : JSFile) : Bool :=
  supportedFormats.any (fun p => p.1 == f.mimeType)
    || supportedExtensionList.contains (fileExtension f.name)

/-- Translated from `handleFileChange` (App.jsx 396-404): a picked supported
file becomes the selection; anything else (no file, or an unsupported one)
resets the selection to `null` regardless of any prior selection. -/
def handleFileChange (prior : Option JSFile) (picked : Option JSFile) : Option JSFile :=
  match picked with
  | some f => if isFileSupported f then some f else none
  | none => none

/-- Translated from the upload button's `disabled={!selectedFile || loading}`
(App.jsx 451-453). -/
def uploadDisabled (selected : Option JSFile) (loading : Bool) : Bool :=
  selected.isNone || loading

/-! ## SpreadsheetEngine write/read (Modelled from the spec, §3-§4.2) -/

/-- Modelled from the spec: §3's Cell tagged value — one of
empty/number/text/boolean. -/
inductive CellValue
  | empty
  | number (v : Int)
  | text (s : String)
  | boolean (b : Bool)
deriving DecidableEq

/-- Modelled from the spec: §3's Cell — a tagged value plus an optional
original-format hint carried through but not interpreted. -/
structure Cell where
  value : CellValue
  formatHint : Option String
deriving DecidableEq

/-- Modelled from the spec: §3's CellAddress, a zero-based (row, column)
pair. -/
structure CellAddress where
  row : Nat
  col : Nat
deriving DecidableEq

/-- Modelled from the spec: §3's Range, a (topLeft, bottomRight) pair. -/
structure Range where
  topLeft : CellAddress
  bottomRight : CellAddress
deriving DecidableEq

/-- Row cardinality of a range (inclusive corners). -/
def Range.rowCard (r : Range) : Nat := r.bottomRight.row + 1 - r.topLeft.row

/-- Column cardinality of a range (inclusive corners). -/
def Range.colCard (r : Range) : Nat := r.bottomRight.col + 1 - r.topLeft.col

/-- Modelled from the spec: §4.1's range ordering — top-left above-and-left
of bottom-right. -/
def Range.ordered (r : Range) : Bool :=
  decide (r.topLeft.row ≤ r.bottomRight.row) && decide (r.topLeft.col ≤ r.bottomRight.col)

/-- Modelled from the spec: §3's Sheet — a 2-D container of cells addressed
by zero-based (row, column) with a declared extent that can grow. -/
structure Sheet where
  cells : Nat → Nat → Cell
  rowCount : Nat
  colCount : Nat

/-- Modelled from the spec: §7's engine-level error taxonomy (the kinds the
write/read operations use). -/
inductive EngineError
  | InvalidReference
  | RangeOrderError
  | OutOfBounds
  | ShapeMismatch
  | EmptyAggregate
deriving DecidableEq

/-- Modelled from the spec: §4.2's cardinality check — the value grid must
match the range's row/column cardinality exactly. -/
def shapeMatches (r : Range) (v : List (List Cell)) : Bool :=
  v.length == r.rowCard && v.all fun row => row.length == r.colCard

/-- Modelled from the spec: §4.2 — the sheet after a validated write: cells
inside the range take the corresponding value-grid entry, all others are
kept, and the extent grows to contain the range's bottom-right corner. -/
def Sheet.afterWrite (s : Sheet) (r : Range) (v : List (List Cell)) : Sheet :=
  { cells := fun i j =>
      if r.topLeft.row ≤ i ∧ i ≤ r.bottomRight.row ∧
          r.topLeft.col ≤ j ∧ j ≤ r.bottomRight.col then
        (v.getD (i - r.topLeft.row) []).getD (j - r.topLeft.col) ⟨.empty, none⟩
      else s.cells i j
    rowCount := max s.rowCount (r.bottomRight.row + 1)
    colCount := max s.colCount (r.bottomRight.col + 1) }

/-- Modelled from the spec: §4.2 `writeRange(range, values)` — values must
match the range's cardinality exactly (`ShapeMismatch` otherwise, after
§4.1's `RangeOrderError` for a disordered range); the write lands
all-or-nothing and extends the sheet's extent when needed so that the extent
still contains every written address. -/
def Sheet.writeRange (s : Sheet) (r : Range) (v : List (List Cell)) :
    Except EngineError Sheet :=
  if !r.ordered then .error .RangeOrderError
  else if !shapeMatches r v then .error .ShapeMismatch
  else .ok (s.afterWrite r v)

/-- Modelled from the spec: §4.2 `readRange(range)` — returns the grid of
cells in the range, failing with `OutOfBounds` if the range exceeds the
current extent. -/
def Sheet.readRange (s : Sheet) (r : Range) :
    Except EngineError (List (List Cell)) :=
  if r.bottomRight.row < s.rowCount ∧ r.bottomRight.col < s.colCount then
    .ok ((List.range r.rowCard).map fun i =>
      (List.range r.colCard).map fun j =>
        s.cells (r.topLeft.row + i) (r.topLeft.col + j))
  else .error .OutOfBounds

/-! ## Helper lemmas: the column-name encoder -/

/-- The fuel argument of `colCharsAux` is irrelevant once it bounds the
running index. -/
theorem colCharsAux_congr : ∀ fuel fuel' n, n ≤ fuel → n ≤ fuel' →
    colCharsAux fuel n = colCharsAux fuel' n := by
  intro fuel
  induction fuel using Nat.strong_induction_on with
  | _ fuel ih =>
    intro fuel' n hf hf'
    match fuel, fuel' with
    | 0, 0 => rfl
    | 0, f' + 1 =>
      interval_cases n
      simp [colCharsAux]
    | f + 1, 0 =>
      interval_cases n
      simp [colCharsAux]
    | f + 1, f' + 1 =>
      simp only [colCharsAux]
      split
      · rfl
      · rename_i hn
        have hdiv := Nat.div_le_self n 26
        rw [ih f (by omega) f' (n / 26 - 1) (by omega) (by omega)]

/-- The defining recurrence of `getExcelColumnName`'s loop: one character for
an index below 26, otherwise the recursive call's characters followed by the
current remainder's character. -/
theorem colChars_eq (n : Nat) : colChars n =
    if n < 26 then [Char.ofNat (65 + n % 26)]
    else colChars (n / 26 - 1) ++ [Char.ofNat (65 + n % 26)] := by
  unfold colChars
  match n with
  | 0 => rfl
  | m + 1 =>
    simp only [colCharsAux]
    split
    · rfl
    · rename_i hn
      have hdiv := Nat.div_le_self (m + 1) 26
      rw [colCharsAux_congr m ((m + 1) / 26 - 1) ((m + 1) / 26 - 1) (by omega) le_rfl]

/-- The character codes the encoder emits are literal: `Char.ofNat` at
`65 + r` for `r < 26` round-trips through `toNat`. -/
theorem charCode_emitted : ∀ r : Nat, r < 26 → (Char.ofNat (65 + r)).toNat = 65 + r := by
  decide

/-- The encoder's character list is never empty. -/
theorem colChars_ne_nil (n : Nat) : colChars n ≠ [] := by
  rw [colChars_eq]
  split
  · simp
  · simp

/-- Every character the encoder emits is an uppercase letter (code 65-90). -/
theorem colChars_upper (n : Nat) : ∀ c ∈ colChars n, 65 ≤ c.toNat ∧ c.toNat ≤ 90 := by
  induction n using Nat.strong_induction_on with
  | _ n ih =>
    intro c hc
    rw [colChars_eq] at hc
    have hmod : n % 26 < 26 := Nat.mod_lt _ (by omega)
    have hcode := charCode_emitted (n % 26) hmod
    split at hc
    · simp only [List.mem_singleton] at hc
      subst hc
      omega
    · rename_i hn
      rw [List.mem_append, List.mem_singleton] at hc
      rcases hc with hc | hc
      · have hdiv := Nat.div_le_self n 26
        exact ih (n / 26 - 1) (by omega) c hc
      · subst hc
        omega

/-- Decoding the encoder's character list recovers the 1-based bijective
base-26 value: `decodeColumnChars (colChars n) = n + 1`. -/
theorem decodeColumnChars_colChars (n : Nat) :
    decodeColumnChars (colChars n) = n + 1 := by
  induction n using Nat.strong_induction_on with
  | _ n ih =>
    have hmod : n % 26 < 26 := Nat.mod_lt _ (by omega)
    have hcode := charCode_emitted (n % 26) hmod
    rw [colChars_eq]
    split
    · rename_i hn
      simp only [decodeColumnChars, List.foldl_cons, List.foldl_nil]
      rw [hcode]
      omega
    · rename_i hn
      have hdiv := Nat.div_le_self n 26
      have hone : 1 ≤ n / 26 := (Nat.one_le_div_iff (by omega)).mpr (by omega)
      have hmoddiv := Nat.div_add_mod n 26
      simp only [decodeColumnChars, List.foldl_append, List.foldl_cons, List.foldl_nil]
      rw [show (List.foldl (fun acc c => acc * 26 + (c.toNat - 64)) 0 (colChars (n / 26 - 1)))
            = decodeColumnChars (colChars (n / 26 - 1)) from rfl]
      rw [ih (n / 26 - 1) (by omega)]
      rw [hcode]
      have : (n / 26 - 1 + 1) = n / 26 := by omega
      rw [this]
      omega

/-- A non-empty list of uppercase letters has a positive bijective base-26
value. -/
theorem decodeColumnChars_pos (l : List Char) (hne : l ≠ [])
    (hup : ∀ c ∈ l, 65 ≤ c.toNat ∧ c.toNat ≤ 90) : 1 ≤ decodeColumnChars l := by
  induction l using List.reverseRecOn with
  | nil => exact absurd rfl hne
  | append_singleton l c ih =>
    have hc : 65 ≤ c.toNat ∧ c.toNat ≤ 90 := hup c (by simp)
    simp only [decodeColumnChars, List.foldl_append, List.foldl_cons, List.foldl_nil]
    omega

/-- Encoding the decoded value of a valid letter list recovers the list:
`colChars (decodeColumnChars l - 1) = l`. -/
theorem colChars_decodeColumnChars (l : List Char) (hne : l ≠ [])
    (hup : ∀ c ∈ l, 65 ≤ c.toNat ∧ c.toNat ≤ 90) :
    colChars (decodeColumnChars l - 1) = l := by
  induction l using List.reverseRecOn with
  | nil => exact absurd rfl hne
  | append_singleton l c ih =>
    have hc : 65 ≤ c.toNat ∧ c.toNat ≤ 90 := hup c (by simp)
    have hfold : decodeColumnChars (l ++ [c])
        = decodeColumnChars l * 26 + (c.toNat - 64) := by
      simp only [decodeColumnChars, List.foldl_append, List.foldl_cons, List.foldl_nil]
    rcases List.eq_nil_or_concat l with hl | hl
    · subst hl
      have hval : decodeColumnChars ([] ++ [c]) = c.toNat - 64 := by
        simp only [decodeColumnChars, List.nil_append, List.foldl_cons, List.foldl_nil]
        omega
      rw [hval, colChars_eq]
      have hlt : c.toNat - 64 - 1 < 26 := by omega
      rw [if_pos hlt]
      have hmod : (c.toNat - 64 - 1) % 26 = c.toNat - 65 := by
        rw [Nat.mod_eq_of_lt (by omega)]
        omega
      rw [hmod, List.nil_append]
      have : 65 + (c.toNat - 65) = c.toNat := by omega
      rw [this, Char.ofNat_toNat]
    · have hlne : l ≠ [] := by
        rcases hl with ⟨l', a, rfl⟩
        simp
      have hupl : ∀ c' ∈ l, 65 ≤ c'.toNat ∧ c'.toNat ≤ 90 := by
        intro c' hc'
        exact hup c' (List.mem_append_left _ hc')
      have hpos : 1 ≤ decodeColumnChars l := decodeColumnChars_pos l hlne hupl
      have hn : decodeColumnChars (l ++ [c]) - 1
          = decodeColumnChars l * 26 + (c.toNat - 65) := by omega
      rw [hn, colChars_eq]
      have hge : ¬ (decodeColumnChars l * 26 + (c.toNat - 65) < 26) := by
        have : 26 ≤ decodeColumnChars l * 26 := by omega
        omega
      rw [if_neg hge]
      have hr : c.toNat - 65 < 26 := by omega
      have hmod : (decodeColumnChars l * 26 + (c.toNat - 65)) % 26 = c.toNat - 65 := by
        omega
      have hdiv : (decodeColumnChars l * 26 + (c.toNat - 65)) / 26 = decodeColumnChars l := by
        omega
      rw [hmod, hdiv]
      rw [ih hlne hupl]
      have : 65 + (c.toNat - 65) = c.toNat := by omega
      rw [this, Char.ofNat_toNat]

/-- `getExcelColumnName` at a natural-number index is the loop's character
list verbatim. -/
theorem getExcelColumnName_natCast (n : Nat) :
    getExcelColumnName (n : Int) = String.mk (colChars n) := by
  unfold getExcelColumnName
  rw [if_neg (by omega), Int.toNat_natCast]

/-- Round trip on indices: decoding the encoder's output recovers the
index. -/
theorem decode_encode_nat (n : Nat) :
    decodeColumnName (getExcelColumnName (n : Int)) = n := by
  rw [getExcelColumnName_natCast]
  show decodeColumnChars (colChars n) - 1 = n
  rw [decodeColumnChars_colChars]
  omega

/-- The encoder, as the viewer calls it on natural indices, is injective. -/
theorem getExcelColumnName_injective :
    Function.Injective (fun n : Nat => getExcelColumnName (n : Int)) := by
  intro a b h
  have ha := decode_encode_nat a
  have hb := decode_encode_nat b
  simp only at h
  rw [h] at ha
  rw [hb] at ha
  omega

/-- Length of the encoding for indices below 26. -/
theorem colChars_length_one (n : Nat) (h : n < 26) : (colChars n).length = 1 := by
  rw [colChars_eq, if_pos h]
  rfl

/-- Length of the encoding for indices in [26, 702). -/
theorem colChars_length_two (n : Nat) (h1 : 26 ≤ n) (h2 : n < 702) :
    (colChars n).length = 2 := by
  rw [colChars_eq, if_neg (by omega)]
  have hlt : n / 26 < 27 := (Nat.div_lt_iff_lt_mul (by omega)).mpr (by omega)
  have hge : 1 ≤ n / 26 := (Nat.one_le_div_iff (by omega)).mpr h1
  rw [List.length_append, colChars_length_one (n / 26 - 1) (by omega)]
  rfl

/-- Length of the encoding for indices in [702, 18278). -/
theorem colChars_length_three (n : Nat) (h1 : 702 ≤ n) (h2 : n < 18278) :
    (colChars n).length = 3 := by
  rw [colChars_eq, if_neg (by omega)]
  have hlt : n / 26 < 703 := (Nat.div_lt_iff_lt_mul (by omega)).mpr (by omega)
  have hge : 27 ≤ n / 26 := (Nat.le_div_iff_mul_le (by omega)).mpr (by omega)
  rw [List.length_append, colChars_length_two (n / 26 - 1) (by omega) (by omega)]
  rfl

/-! ## Claim theorems -/

/-- C1: the column-name encoding maps zero-based index 0 to "A", 25 to "Z",
26 to "AA", 51 to "AZ", and 52 to "BA", following the bijective base-26
scheme. -/
theorem excelColumnName_bijective_base26_anchor_values :
    getExcelColumnName 0 = "A" ∧ getExcelColumnName 25 = "Z" ∧
    getExcelColumnName 26 = "AA" ∧ getExcelColumnName 51 = "AZ" ∧
    getExcelColumnName 52 = "BA" := by
  decide

/-- C2 counterexample: the claim that the length of the encoding strictly
increases at powers of 26 fails at 26^2 = 676: index 675 encodes to the
two-letter "YZ" and index 676 to the two-letter "ZA", so there is no length
increase at that power (the two-to-three boundary is at 702 instead). -/
theorem excelColumnName_length_flat_at_26_squared :
    676 = 26 ^ 2 ∧ getExcelColumnName 675 = "YZ" ∧ getExcelColumnName 676 = "ZA" ∧
    ¬ (getExcelColumnName 675).length < (getExcelColumnName 676).length := by
  decide

/-- C2 (amended): decoding is the exact inverse of encoding — for every
i in [0, 10000), decode(encode(i)) = i, for every valid column-name string
s, encode(decode(s)) = s — and within this range the length of encode(i)
strictly increases exactly at the indices 26 and 702 (the sums
26 and 26 + 26^2 of the bijective base-26 block sizes): index 25 encodes to
the one-letter "Z" and index 26 to the two-letter "AA". -/
theorem excelColumnName_roundtrip_and_length_boundaries :
    (∀ i : Nat, i < 10000 → decodeColumnName (getExcelColumnName (i : Int)) = i) ∧
    (∀ s : String, isValidColumnName s = true →
      getExcelColumnName ((decodeColumnName s : Nat) : Int) = s) ∧
    (∀ i : Nat, i + 1 < 10000 →
      ((getExcelColumnName (i : Int)).length
          < (getExcelColumnName ((i + 1 : Nat) : Int)).length
        ↔ (i + 1 = 26 ∨ i + 1 = 702))) := by
  refine ⟨fun i _ => decode_encode_nat i, ?_, ?_⟩
  · intro s hs
    have hd : ¬s.data.isEmpty = true ∧
        ∀ c ∈ s.data, 65 ≤ c.toNat ∧ c.toNat ≤ 90 := by
      simpa [isValidColumnName, List.all_eq_true] using hs
    have hne : s.data ≠ [] := by
      intro h
      exact hd.1 (by simp [h])
    rw [getExcelColumnName_natCast]
    show String.mk (colChars (decodeColumnChars s.data - 1)) = s
    rw [colChars_decodeColumnChars s.data hne hd.2]
  · intro i h
    have e1 : (getExcelColumnName (i : Int)).length = (colChars i).length := by
      rw [getExcelColumnName_natCast]
      rfl
    have e2 : (getExcelColumnName ((i + 1 : Nat) : Int)).length
        = (colChars (i + 1)).length := by
      rw [getExcelColumnName_natCast]
      rfl
    rw [e1, e2]
    rcases Nat.lt_or_ge (i + 1) 26 with h1 | h1
    · rw [colChars_length_one i (by omega), colChars_length_one (i + 1) (by omega)]
      omega
    rcases Nat.lt_or_ge (i + 1) 27 with h2 | h2
    · rw [colChars_length_one i (by omega),
        colChars_length_two (i + 1) (by omega) (by omega)]
      omega
    rcases Nat.lt_or_ge (i + 1) 702 with h3 | h3
    · rw [colChars_length_two i (by omega) (by omega),
        colChars_length_two (i + 1) (by omega) (by omega)]
      omega
    rcases Nat.lt_or_ge (i + 1) 703 with h4 | h4
    · rw [colChars_length_two i (by omega) (by omega),
        colChars_length_three (i + 1) (by omega) (by omega)]
      omega
    · rw [colChars_length_three i (by omega) (by omega),
        colChars_length_three (i + 1) (by omega) (by omega)]
      omega

/-- C2 witness: the amended round-trip and boundary statements at concrete
inputs 52, "BA" and the 25-to-26 boundary. -/
theorem excelColumnName_roundtrip_boundary_instance :
    decodeColumnName (getExcelColumnName ((52 : Nat) : Int)) = 52 ∧
    getExcelColumnName ((decodeColumnName "BA" : Nat) : Int) = "BA" ∧
    ((getExcelColumnName ((25 : Nat) : Int)).length
        < (getExcelColumnName ((25 + 1 : Nat) : Int)).length
      ↔ (25 + 1 = 26 ∨ 25 + 1 = 702)) :=
  ⟨excelColumnName_roundtrip_and_length_boundaries.1 52 (by decide),
   excelColumnName_roundtrip_and_length_boundaries.2.1 "BA" (by decide),
   excelColumnName_roundtrip_and_length_boundaries.2.2 25 (by decide)⟩

/-- C3: each of the two message kinds pushed to an observer is handled
accordingly — a state-delta (`excel_update`) replaces the grid state and
leaves the conversation alone, and any other message is appended to the
conversation as an assistant chat message (its `excel_modified` flag
deciding the follow-up fetch). -/
theorem handleWsMessage_two_kinds_dispatch :
    ∀ (st : AppState) (d : List RowData) (m : Metadata) (resp : String) (em : Bool),
      (handleWsMessage st (.excelUpdate d m)).1.excelData = some ⟨d, m⟩ ∧
      (handleWsMessage st (.excelUpdate d m)).1.messages = st.messages ∧
      (handleWsMessage st (.chatReply resp em)).1.excelData = st.excelData ∧
      (handleWsMessage st (.chatReply resp em)).1.messages
        = st.messages ++ [⟨"assistant", resp⟩] ∧
      (handleWsMessage st (.chatReply resp em)).2 = em :=
  fun _ _ _ _ _ => ⟨rfl, rfl, rfl, rfl, rfl⟩

/-- C5: the encoder has no representation for index -1 (it yields the empty
string there, which no non-negative index produces) and for every
non-negative index yields a non-empty string of uppercase letters only; in
particular no zero digit such as in "A0" ever appears. -/
theorem excelColumnName_no_negative_one_no_zero_digit :
    getExcelColumnName (-1) = "" ∧
    ∀ i : Int, 0 ≤ i →
      getExcelColumnName i ≠ "" ∧
      ∀ c ∈ (getExcelColumnName i).data, (65 ≤ c.toNat ∧ c.toNat ≤ 90) ∧ c ≠ '0' := by
  constructor
  · decide
  · intro i hi
    have hrep : getExcelColumnName i = String.mk (colChars i.toNat) := by
      unfold getExcelColumnName
      rw [if_neg (by omega)]
    rw [hrep]
    constructor
    · intro hemp
      have hdata : colChars i.toNat = [] := by
        have := congrArg String.data hemp
        simpa using this
      exact colChars_ne_nil _ hdata
    · intro c hc
      have hup := colChars_upper i.toNat c (by simpa using hc)
      refine ⟨hup, ?_⟩
      intro h0
      rw [h0] at hup
      exact absurd hup (by decide)

/-- C5 witness: the encoder at the concrete non-negative index 7 yields a
non-empty string. -/
theorem excelColumnName_no_negative_one_instance :
    getExcelColumnName 7 ≠ "" :=
  (excelColumnName_no_negative_one_no_zero_digit.2 7 (by decide)).1

/-- C6: the connection effect runs only once a session identifier is set, and
then performs exactly one snapshot fetch (and nothing that replays deltas):
its step list is precisely open-socket, register-handlers, store-socket,
fetch-snapshot, and a successful snapshot fetch replaces the grid state
wholesale without touching the conversation. -/
theorem attach_snapshot_once :
    ∀ cid : String,
      attachEffectSteps (some cid)
        = [.openWebSocket ("ws://localhost:8000/ws/" ++ cid), .registerHandlers,
           .storeSocket, .fetchSnapshot] ∧
      (attachEffectSteps (some cid)).countP isSnapshotFetch = 1 ∧
      attachEffectSteps none = [] ∧
      ∀ (st : AppState) (d : ExcelData),
        (fetchExcelData st (some d)).excelData = some d ∧
        (fetchExcelData st (some d)).messages = st.messages :=
  fun _ => ⟨rfl, rfl, rfl, fun _ _ => ⟨rfl, rfl⟩⟩

/-- C7: a session identifier is only ever obtained from a successful upload
response: a non-ok response or a thrown fetch leaves `clientId` untouched
and reports an error instead (so an app still without an identifier stays on
the upload screen), while a successful response stores the returned
identifier. -/
theorem upload_failure_no_session :
    ∀ (st : AppState) (status : Nat) (body : String) (cid : String),
      (handleFileUpload st (.httpError status body)).clientId = st.clientId ∧
      (handleFileUpload st (.httpError status body)).error
        = some "Failed to upload file. Please try again." ∧
      (handleFileUpload st .networkError).clientId = st.clientId ∧
      (handleFileUpload st .networkError).error
        = some "Failed to upload file. Please try again." ∧
      (st.clientId = none →
        showsUploadScreen (handleFileUpload st (.httpError status body)) = true ∧
        showsUploadScreen (handleFileUpload st .networkError) = true) ∧
      (handleFileUpload st (.success cid)).clientId = some cid := by
  intro st status body cid
  refine ⟨rfl, rfl, rfl, rfl, ?_, rfl⟩
  intro hnone
  constructor <;> simp [showsUploadScreen, handleFileUpload, hnone]

/-- C7 witness: a concrete failed upload (HTTP 500) on a fresh app state
leaves the app on the upload screen. -/
theorem upload_failure_no_session_instance :
    showsUploadScreen
      (handleFileUpload ⟨none, none, false, none, []⟩ (.httpError 500 "oops")) = true :=
  ((upload_failure_no_session ⟨none, none, false, none, []⟩ 500 "oops" "c1").2.2.2.2.1
    rfl).1

/-- C8: with no socket or a socket not in the OPEN state, `sendMessage` only
sets an error — the message history is unchanged and nothing is transmitted;
with an OPEN socket the user turn is appended to the history and the message
is transmitted. -/
theorem sendMessage_requires_open_socket :
    ∀ (socket : Option ReadyState) (st : AppState) (m : String),
      (socket ≠ some .opened →
        (sendMessage socket st m).1.messages = st.messages ∧
        (sendMessage socket st m).2 = none ∧
        (sendMessage socket st m).1.error
          = some "Connection lost. Please refresh the page.") ∧
      (socket = some .opened →
        (sendMessage socket st m).1.messages = st.messages ++ [⟨"user", m⟩] ∧
        (sendMessage socket st m).2 = some m ∧
        (sendMessage socket st m).1.error = st.error) := by
  intro socket st m
  constructor
  · intro hne
    match socket with
    | none => exact ⟨rfl, rfl, rfl⟩
    | some rs =>
      have hrs : ¬rs = ReadyState.opened := by
        intro h
        exact hne (by rw [h])
      simp [sendMessage, hrs]
  · intro he
    subst he
    simp [sendMessage]

/-- C8 witness: with no socket at all, a concrete send transmits nothing. -/
theorem sendMessage_requires_open_socket_instance :
    (sendMessage none ⟨none, none, false, none, []⟩ "hi").2 = none :=
  ((sendMessage_requires_open_socket none ⟨none, none, false, none, []⟩ "hi").1
    (by decide)).2.1

/-- C9: for a grid declaring `n` columns the viewer builds exactly `n` column
definitions whose names are, in order, the encodings of indices 0 through
n-1 — hence pairwise distinct — and one row object per data row whose id is
its zero-based index. -/
theorem excelViewer_columns_rows_shape :
    ∀ (n : Nat) (α : Type) (data : List α),
      (makeColumns n).length = n ∧
      (makeColumns n).map (fun c => c.name)
        = (List.range n).map (fun i : Nat => getExcelColumnName (i : Int)) ∧
      ((makeColumns n).map (fun c => c.name)).Nodup ∧
      (makeRows data).length = data.length ∧
      (makeRows data).map (fun r => r.id) = List.range data.length := by
  intro n α data
  have hnames : (makeColumns n).map (fun c => c.name)
      = (List.range n).map (fun i : Nat => getExcelColumnName (i : Int)) := by
    unfold makeColumns
    rw [List.map_map]
    rfl
  have hlen : (makeColumns n).length = n := by
    unfold makeColumns
    rw [List.length_map, List.length_range]
  have hrlen : (makeRows data).length = data.length := by
    unfold makeRows
    rw [List.length_map, List.enum_length]
  have hids : (makeRows data).map (fun r => r.id) = data.enum.map Prod.fst := by
    unfold makeRows
    rw [List.map_map]
    rfl
  refine ⟨hlen, hnames, ?_, hrlen, ?_⟩
  · rw [hnames]
    exact (List.nodup_range n).map getExcelColumnName_injective
  · rw [hids, List.enum_map_fst]

/-- C10: a picked file becomes the selection exactly when its MIME type is
one of the declared supported spreadsheet MIME types or, as a fallback, its
lower-cased extension is one of xlsx/xls/csv/tsv/ods/fods/xlsm/xltx/xltm; a
rejected file resets the selection (whatever was selected before), so the
upload button stays disabled. -/
theorem fileUpload_accepts_iff_supported :
    ∀ (prior : Option JSFile) (f : JSFile) (loading : Bool),
      (handleFileChange prior (some f) = some f ↔
        (f.mimeType ∈ supportedFormats.map Prod.fst ∨
         fileExtension f.name ∈ supportedExtensionList)) ∧
      (isFileSupported f = false →
        handleFileChange prior (some f) = none ∧
        uploadDisabled (handleFileChange prior (some f)) loading = true) ∧
      handleFileChange prior none = none := by
  intro prior f loading
  have hiff : isFileSupported f = true ↔
      (f.mimeType ∈ supportedFormats.map Prod.fst ∨
       fileExtension f.name ∈ supportedExtensionList) := by
    simp only [isFileSupported, Bool.or_eq_true, List.any_eq_true, beq_iff_eq,
      List.mem_map, List.contains, List.elem_iff]
  refine ⟨?_, ?_, rfl⟩
  · rw [← hiff]
    simp only [handleFileChange]
    by_cases hs : isFileSupported f = true
    · simp [hs]
    · simp [hs]
  · intro hns
    simp only [handleFileChange]
    rw [if_neg (by simp [hns])]
    exact ⟨rfl, rfl⟩

/-- C10 witness: a concrete plain-text file is rejected and leaves the
upload button disabled even when something was selected before. -/
theorem fileUpload_accepts_iff_supported_instance :
    handleFileChange (some ⟨"book.xlsx", "application/vnd.ms-excel"⟩)
      (some ⟨"notes.txt", "text/plain"⟩) = none ∧
    uploadDisabled (handleFileChange (some ⟨"book.xlsx", "application/vnd.ms-excel"⟩)
      (some ⟨"notes.txt", "text/plain"⟩)) false = true :=
  (fileUpload_accepts_iff_supported (some ⟨"book.xlsx", "application/vnd.ms-excel"⟩)
    ⟨"notes.txt", "text/plain"⟩ false).2.1 (by decide)

/-- Reading a list back elementwise over the range of its length recovers
the list. -/
theorem getD_range_map {α : Type} (l : List α) (d : α) :
    (List.range l.length).map (fun j => l.getD j d) = l := by
  apply List.ext_getElem
  · simp
  · intro i h1 h2
    simp [List.getD_eq_getElem?_getD, List.getElem?_eq_getElem h2]

/-- C4: writing a rectangular value grid that matches a range's row/column
cardinality and then reading the same range back returns exactly that grid
(the write extends the extent as needed, so the read is in bounds). -/
theorem writeRange_readRange_roundtrip (s : Sheet) (r : Range) (v : List (List Cell))
    (ho : r.ordered = true) (hs : shapeMatches r v = true) :
    (s.writeRange r v).bind (fun s2 => s2.readRange r) = Except.ok v := by
  have hord : r.topLeft.row ≤ r.bottomRight.row ∧ r.topLeft.col ≤ r.bottomRight.col := by
    simpa [Range.ordered] using ho
  have hshape : v.length = r.rowCard ∧ ∀ row ∈ v, row.length = r.colCard := by
    simpa [shapeMatches, List.all_eq_true] using hs
  have h1 : (!r.ordered) = false := by
    rw [ho]
    rfl
  have h2 : (!shapeMatches r v) = false := by
    rw [hs]
    rfl
  have hw : s.writeRange r v = Except.ok (s.afterWrite r v) := by
    unfold Sheet.writeRange
    rw [h1, h2]
    rfl
  rw [hw]
  show (s.afterWrite r v).readRange r = Except.ok v
  have hb : r.bottomRight.row < (s.afterWrite r v).rowCount ∧
      r.bottomRight.col < (s.afterWrite r v).colCount := by
    constructor
    · exact Nat.lt_of_lt_of_le (Nat.lt_succ_self _) (le_max_right _ _)
    · exact Nat.lt_of_lt_of_le (Nat.lt_succ_self _) (le_max_right _ _)
  unfold Sheet.readRange
  rw [if_pos hb]
  congr 1
  simp only [Sheet.afterWrite]
  apply List.ext_getElem
  · rw [List.length_map, List.length_range, hshape.1]
  · intro i h1 h2
    rw [List.length_map, List.length_range] at h1
    have hiv : i < v.length := by omega
    rw [List.getElem_map, List.getElem_range]
    have hrowD : v.getD i [] = v[i] := by
      simp [List.getD_eq_getElem?_getD, List.getElem?_eq_getElem hiv]
    have hrowlen : (v[i]).length = r.colCard :=
      hshape.2 (v[i]) (List.getElem_mem hiv)
    have hmap : ∀ j ∈ List.range r.colCard,
        (if r.topLeft.row ≤ r.topLeft.row + i ∧ r.topLeft.row + i ≤ r.bottomRight.row ∧
            r.topLeft.col ≤ r.topLeft.col + j ∧ r.topLeft.col + j ≤ r.bottomRight.col then
          (v.getD (r.topLeft.row + i - r.topLeft.row) []).getD
            (r.topLeft.col + j - r.topLeft.col) ⟨.empty, none⟩
        else s.cells (r.topLeft.row + i) (r.topLeft.col + j))
        = (v[i]).getD j ⟨.empty, none⟩ := by
      intro j hj
      rw [List.mem_range] at hj
      have hi' : r.topLeft.row + i ≤ r.bottomRight.row := by
        have := hshape.1
        unfold Range.rowCard at this
        omega
      have hj' : r.topLeft.col + j ≤ r.bottomRight.col := by
        unfold Range.colCard at hj
        omega
      rw [if_pos ⟨Nat.le_add_right _ _, hi', Nat.le_add_right _ _, hj'⟩]
      rw [Nat.add_sub_cancel_left, Nat.add_sub_cancel_left, hrowD]
    rw [List.map_congr_left hmap, ← hrowlen, getD_range_map]

/-- C4 witness: on a concrete empty 3x3 sheet, writing a 2x2 grid of numbers
to the range (0,0)-(1,1) and reading it back returns exactly that grid. -/
theorem writeRange_readRange_roundtrip_instance :
    ((Sheet.mk (fun _ _ => ⟨CellValue.empty, none⟩) 3 3).writeRange
        ⟨⟨0, 0⟩, ⟨1, 1⟩⟩
        [[⟨.number 1, none⟩, ⟨.number 2, none⟩],
         [⟨.number 3, none⟩, ⟨.number 4, none⟩]]).bind
      (fun s2 => s2.readRange ⟨⟨0, 0⟩, ⟨1, 1⟩⟩)
    = Except.ok
        [[⟨.number 1, none⟩, ⟨.number 2, none⟩],
         [⟨.number 3, none⟩, ⟨.number 4, none⟩]] :=
  writeRange_readRange_roundtrip _ _ _ (by decide) (by decide)
